import Mathlib

/-!
Shallow embedding of the imposition engine in `tinybooklet.py` and proofs of
the specified properties of its padding, pairing, packing and geometry stages.

Conventions of the embedding:
- Python lists become `List`, machine integers become `Nat`/`Int`.
- Python floats carry exact page dimensions and scale factors here; they are
  modelled as exact rationals (`ℚ`), since every dimension computation in the
  source is a product, sum or floor of such values.
- Functions that can raise exceptions return `Except String`.
- Python slice expressions with possibly negative endpoints are modelled by
  `pySliceTo` / `pySliceFrom`, which reproduce the clamping semantics of
  `xs[:stop]` and `xs[start:]`.
- `make_spreads` recurses on `pages[2:-2]`, which is not a structural
  recursion; it is embedded with a fuel argument (the list length bounds the
  recursion depth), and the fuel-independence lemma below recovers the exact
  recurrence of the source.
-/

namespace TinyBooklet

/-- A page taken from the input PDF, or a blank padding page
(the `OriginalPage` and `BlankPage` classes of the source). -/
inductive Page where
  | OriginalPage (page_number : Nat)
  | BlankPage
deriving DecidableEq, Repr, Inhabited

/-- A spread of 4 pages: two on the front, two on the back
(the `Spread` dataclass of the source). -/
structure Spread where
  front_left : Page
  front_right : Page
  back_left : Page
  back_right : Page
deriving DecidableEq, Repr, Inhabited

/-- Python `xs[:stop]` with an `Int` endpoint: a negative endpoint counts from
the end of the list, and out-of-range endpoints clamp. -/
def pySliceTo (xs : List α) (stop : Int) : List α :=
  if stop < 0 then xs.take (xs.length - stop.natAbs) else xs.take stop.toNat

/-- Python `xs[start:]` with an `Int` endpoint: a negative endpoint counts from
the end of the list, and out-of-range endpoints clamp. -/
def pySliceFrom (xs : List α) (start : Int) : List α :=
  if start < 0 then xs.drop (xs.length - start.natAbs) else xs.drop start.toNat

/-- `pad_pages` of the source: pad the list of pages to a multiple of 4,
keeping the last `num_last_pages` pages at the end (the blanks are inserted
just before them). -/
def pad_pages (num_last_pages : Nat) (pages : List Page) : List Page :=
  if pages.length % 4 ≠ 0 then
    let pages_to_add := 4 - pages.length % 4
    let first_pages := pySliceTo pages ((pages.length : Int) - (num_last_pages : Int))
    let last_pages := pySliceFrom pages ((pages.length : Int) - (num_last_pages : Int))
    let blank_pages := List.replicate pages_to_add Page.BlankPage
    first_pages ++ blank_pages ++ last_pages
  else
    pages

/-- Extract the source index of a page, `none` for a blank page. -/
def original_index : Page → Option Nat
  | Page.OriginalPage i => some i
  | Page.BlankPage => none

/-- Python `pages[2:-2]`: the inner slice that `make_spreads` recurses on. -/
def innerSlice (pages : List Page) : List Page :=
  (pages.take (pages.length - 2)).drop 2

/-- The spread built by one step of `make_spreads`:
`Spread(back_left=pages[0], front_left=pages[1], back_right=pages[-1],
front_right=pages[-2])`.  Indexing is total here (`getD`); the source only
ever indexes in bounds because the list length is a multiple of 4. -/
def headSpread (pages : List Page) : Spread :=
  { front_left := pages.getD 1 Page.BlankPage
  , front_right := pages.getD (pages.length - 2) Page.BlankPage
  , back_left := pages.getD 0 Page.BlankPage
  , back_right := pages.getD (pages.length - 1) Page.BlankPage }

/-- Recursion worker for `make_spreads`.  The source recurses on the shorter
list `pages[2:-2]`; the fuel argument (any bound on the recursion depth) makes
the recursion structural, and `make_spreads_rec_fuel` below shows the result
does not depend on it. -/
def make_spreads_rec : Nat → List Page → List Spread
  | _, [] => []
  | 0, _ :: _ => []
  | fuel + 1, p :: rest =>
      headSpread (p :: rest) :: make_spreads_rec fuel (innerSlice (p :: rest))

/-- `make_spreads` of the source: group a list of pages into spreads, the
first two and last two pages forming the first spread, recursing inward. -/
def make_spreads (pages : List Page) : List Spread :=
  make_spreads_rec pages.length pages

/-- Closed form of the spread at position `k` of the result of
`make_spreads`: slots `2k`, `2k+1` from the front of the list and slots
`n-1-2k`, `n-2-2k` from the back. -/
def spread_at (pages : List Page) (k : Nat) : Spread :=
  { front_left := pages.getD (2 * k + 1) Page.BlankPage
  , front_right := pages.getD (pages.length - 2 - 2 * k) Page.BlankPage
  , back_left := pages.getD (2 * k) Page.BlankPage
  , back_right := pages.getD (pages.length - 1 - 2 * k) Page.BlankPage }

/-- The page list that `impose` builds from the input document:
`[OriginalPage(n) for n in range(input.get_num_pages())]`. -/
def original_pages (count : Nat) : List Page :=
  (List.range count).map Page.OriginalPage

/-- A sheet of paper that the output is printed on (the `OutputSheet`
dataclass).  `paper_size` is in inches; the grid dimensions are derived from
it and the ambient `spread_size`, exactly as in the source. -/
structure OutputSheet where
  paper_size : ℚ × ℚ
  spreads : List Spread
deriving DecidableEq, Repr

/-- Rows of spreads that fit: `int(paper_size[1] // spread_size[1])`
(floor division; both values are positive in any real run). -/
def OutputSheet.spread_grid_rows (spread_size : ℚ × ℚ) (s : OutputSheet) : Int :=
  ⌊s.paper_size.2 / spread_size.2⌋

/-- Columns of spreads that fit: `int(paper_size[0] // spread_size[0])`. -/
def OutputSheet.spread_grid_cols (spread_size : ℚ × ℚ) (s : OutputSheet) : Int :=
  ⌊s.paper_size.1 / spread_size.1⌋

/-- Total spreads that fit on one sheet: rows times columns. -/
def OutputSheet.max_spreads (spread_size : ℚ × ℚ) (s : OutputSheet) : Int :=
  s.spread_grid_rows spread_size * s.spread_grid_cols spread_size

/-- `is_full` of the source: `len(self.spreads) >= self.max_spreads`. -/
def OutputSheet.is_full (spread_size : ℚ × ℚ) (s : OutputSheet) : Bool :=
  decide (s.max_spreads spread_size ≤ (s.spreads.length : Int))

/-- The exception message raised by `add_spread` on a full sheet. -/
def sheet_full_error : String :=
  "cannot add spread to an output sheet that is already full"

/-- `add_spread` of the source: append a spread, or raise if the sheet is
full. -/
def OutputSheet.add_spread (spread_size : ℚ × ℚ) (s : OutputSheet) (spread : Spread) :
    Except String OutputSheet :=
  if s.is_full spread_size then Except.error sheet_full_error
  else Except.ok { s with spreads := s.spreads ++ [spread] }

/-- Loop of `iter_spreads`: yield `(x, y, spread)`, then `x += 1`, wrapping
to the next row when `x` reaches the column count. -/
def iter_spreads_go (cols : Int) : Nat → Nat → List Spread → List (Nat × Nat × Spread)
  | _, _, [] => []
  | x, y, spread :: rest =>
      (x, y, spread) ::
        (if cols ≤ (x + 1 : Int) then iter_spreads_go cols 0 (y + 1) rest
         else iter_spreads_go cols (x + 1) y rest)

/-- `iter_spreads` of the source: all spreads of a sheet with their grid
coordinates, row-major. -/
def OutputSheet.iter_spreads (spread_size : ℚ × ℚ) (s : OutputSheet) :
    List (Nat × Nat × Spread) :=
  iter_spreads_go (s.spread_grid_cols spread_size) 0 0 s.spreads

/-- Worker for `lay_out_spreads`.  The sheets list of the source is
`prev ++ [cur]`: `cur` is the last sheet, the one `sheets[-1]` refers to.
For each spread, if the last sheet is full a fresh sheet is started, and the
spread is added to the last sheet (which raises if that sheet is itself
already full, as happens when the capacity is 0). -/
def lay_out_spreads_go (spread_size input_page_size : ℚ × ℚ)
    (prev : List OutputSheet) (cur : OutputSheet) :
    List Spread → Except String (List OutputSheet)
  | [] => Except.ok (prev ++ [cur])
  | spread :: rest =>
      if cur.is_full spread_size then
        match OutputSheet.add_spread spread_size ⟨input_page_size, []⟩ spread with
        | Except.error e => Except.error e
        | Except.ok c =>
            lay_out_spreads_go spread_size input_page_size (prev ++ [cur]) c rest
      else
        match cur.add_spread spread_size spread with
        | Except.error e => Except.error e
        | Except.ok c => lay_out_spreads_go spread_size input_page_size prev c rest

/-- `lay_out_spreads` of the source: start with one empty sheet and add the
spreads in order. -/
def lay_out_spreads (spread_size input_page_size : ℚ × ℚ) (spreads : List Spread) :
    Except String (List OutputSheet) :=
  lay_out_spreads_go spread_size input_page_size [] ⟨input_page_size, []⟩ spreads

/-- The capacity of a fresh sheet, as a natural number. -/
def sheet_capacity (spread_size input_page_size : ℚ × ℚ) : Nat :=
  (OutputSheet.max_spreads spread_size ⟨input_page_size, []⟩).toNat

/-- Number of sheets the packing loop yields when the last open sheet and
the remaining spreads hold `t` spreads in total and the capacity is `c`. -/
def sheets_needed (c t : Nat) : Nat :=
  1 + (t - c + c - 1) / c

/-- A concrete spread value for witnesses and counterexamples. -/
def blank_spread : Spread :=
  { front_left := Page.BlankPage, front_right := Page.BlankPage
  , back_left := Page.BlankPage, back_right := Page.BlankPage }

/-- The failure mode demanded by the claim: an error distinct from the
internal sheet-full invariant exception (which the design of the error
taxonomy classifies as an internal invariant violation, not a configuration
error). -/
def fails_with_configuration_error (r : Except String (List OutputSheet)) : Prop :=
  ∃ e, r = Except.error e ∧ e ≠ sheet_full_error

/-- One `re s` rectangle-outline drawing command appended to the drawing
command list by `add_page`, in PDF points. -/
structure RectCmd where
  left : ℚ
  bottom : ℚ
  width : ℚ
  height : ℚ
deriving DecidableEq, Repr

/-- One `merge_transformed_page` call: draw input page `page_number` under
`Transformation().scale(scale, scale).translate(x * 72, y * 72)`. -/
structure DrawCmd where
  page_number : Nat
  scale_factor : ℚ
  translate_x : ℚ
  translate_y : ℚ
deriving DecidableEq, Repr

/-- The stroke state set by the first drawing command of each side:
`r/255 g/255 b/255 RG` and `mark_width * 72 / user_unit w`; the user unit of
a freshly added blank output page is 1. -/
structure StrokeState where
  color_r : ℚ
  color_g : ℚ
  color_b : ℚ
  width : ℚ
deriving DecidableEq, Repr

/-- `add_page` of the source, as the pair (cut-line rectangles emitted,
page-draw commands emitted) for one page slot at position `(x, y)` inches:
when marking is on, one rectangle of `input_page_size * scale` (in points) at
`(x * 72, y * 72)`; a blank page draws nothing, an original page is drawn
scaled by `scale` at the same origin. -/
def add_page (mark_cut_lines : Bool) (input_page_size : ℚ × ℚ) (scale : ℚ)
    (input_page : Page) (x y : ℚ) : List RectCmd × List DrawCmd :=
  ( if mark_cut_lines then
      [ { left := x * 72, bottom := y * 72
        , width := input_page_size.1 * scale * 72
        , height := input_page_size.2 * scale * 72 } ]
    else []
  , match input_page with
    | Page.BlankPage => []
    | Page.OriginalPage n =>
        [ { page_number := n, scale_factor := scale
          , translate_x := x * 72, translate_y := y * 72 } ] )

/-- The front-side slots of a sheet, in the order `write_sheets` visits them:
for each spread at grid cell `(x, y)`, `front_left` at
`(spread_w * x, spread_h * y)` and `front_right` at
`(spread_w * (x + 0.5), spread_h * y)` inches. -/
def sheet_front_slots (spread_size : ℚ × ℚ) (sheet : OutputSheet) :
    List (Page × ℚ × ℚ) :=
  (sheet.iter_spreads spread_size).flatMap fun e =>
    [ (e.2.2.front_left, spread_size.1 * (e.1 : ℚ), spread_size.2 * (e.2.1 : ℚ))
    , (e.2.2.front_right, spread_size.1 * ((e.1 : ℚ) + 0.5),
        spread_size.2 * (e.2.1 : ℚ)) ]

/-- The back-side slots of a sheet: `back_left` at
`(sheet_w - spread_w * (x + 1 - 0.5), spread_h * y)` and `back_right` at
`(sheet_w - spread_w * (x + 1), spread_h * y)` inches. -/
def sheet_back_slots (spread_size : ℚ × ℚ) (output_sheet_width : ℚ)
    (sheet : OutputSheet) : List (Page × ℚ × ℚ) :=
  (sheet.iter_spreads spread_size).flatMap fun e =>
    [ (e.2.2.back_left,
        output_sheet_width - spread_size.1 * ((e.1 : ℚ) + 1 - 0.5),
        spread_size.2 * (e.2.1 : ℚ))
    , (e.2.2.back_right,
        output_sheet_width - spread_size.1 * ((e.1 : ℚ) + 1),
        spread_size.2 * (e.2.1 : ℚ)) ]

/-- The geometry emitted for one side (canvas) of one output sheet. -/
structure SideOutput where
  stroke : StrokeState
  rects : List RectCmd
  draws : List DrawCmd
deriving DecidableEq, Repr

/-- All geometry emitted for one side of one sheet: the stroke state set by
the leading drawing command, then the rectangles and page draws produced by
`add_page` on each slot in call order. -/
def side_output (mark_cut_lines : Bool) (input_page_size : ℚ × ℚ) (scale : ℚ)
    (mark_color : Nat × Nat × Nat) (mark_width : ℚ)
    (slots : List (Page × ℚ × ℚ)) : SideOutput :=
  { stroke :=
      { color_r := (mark_color.1 : ℚ) / 255
      , color_g := (mark_color.2.1 : ℚ) / 255
      , color_b := (mark_color.2.2 : ℚ) / 255
      , width := mark_width * 72 }
  , rects := slots.flatMap fun e =>
      (add_page mark_cut_lines input_page_size scale e.1 e.2.1 e.2.2).1
  , draws := slots.flatMap fun e =>
      (add_page mark_cut_lines input_page_size scale e.1 e.2.1 e.2.2).2 }

/-- The two canvases (front and back) written for one output sheet. -/
structure SheetOutput where
  front : SideOutput
  back : SideOutput
deriving DecidableEq, Repr

/-- `write_sheets` of the source, as the geometry emitted per sheet: a front
and a back canvas of the input page size, with the four slots of every
spread placed at the positions of the loop body. -/
def write_sheets (spread_size input_page_size : ℚ × ℚ) (scale : ℚ)
    (mark_cut_lines : Bool) (mark_color : Nat × Nat × Nat) (mark_width : ℚ)
    (sheets : List OutputSheet) : List SheetOutput :=
  sheets.map fun sheet =>
    { front := side_output mark_cut_lines input_page_size scale mark_color mark_width
        (sheet_front_slots spread_size sheet)
    , back := side_output mark_cut_lines input_page_size scale mark_color mark_width
        (sheet_back_slots spread_size input_page_size.1 sheet) }

/-- A page of the input document, as the geometry `impose` reads from it:
mediabox dimensions in points and the display user unit. -/
structure InputPage where
  mediabox_width : ℚ
  mediabox_height : ℚ
  user_unit : ℚ
deriving DecidableEq, Repr

/-- The physical page size in inches:
`(mediabox.width * user_unit / 72, mediabox.height * user_unit / 72)`. -/
def page_size (p : InputPage) : ℚ × ℚ :=
  (p.mediabox_width * p.user_unit / 72, p.mediabox_height * p.user_unit / 72)

/-- The exception message raised on inconsistent page sizes. -/
def multiple_sizes_error : String := "pdf has multiple different page sizes"

/-- `impose` of the source: check that all pages share one size, then pad,
pair, lay out and write.  The Python `set` of sizes is modelled by `dedup`
(same cardinality and membership); `pop()` on the one-element set is its
head. -/
def impose (input_pages : List InputPage) (scale : ℚ) (num_last_pages : Nat)
    (mark_cut_lines : Bool) (mark_color : Nat × Nat × Nat) (mark_width : ℚ) :
    Except String (List SheetOutput) :=
  let input_page_sizes := (input_pages.map page_size).dedup
  if input_page_sizes.length ≠ 1 then Except.error multiple_sizes_error
  else
    let input_page_size := input_page_sizes.headD (0, 0)
    let spread_size := (input_page_size.1 * scale * 2, input_page_size.2 * scale)
    let pages := pad_pages num_last_pages (original_pages input_pages.length)
    let spreads := make_spreads pages
    match lay_out_spreads spread_size input_page_size spreads with
    | Except.error e => Except.error e
    | Except.ok sheets =>
        Except.ok (write_sheets spread_size input_page_size scale mark_cut_lines
          mark_color mark_width sheets)

/-- A concrete sheet of three spreads for the placement witness. -/
def demo_sheet : OutputSheet := ⟨(2, 2), List.replicate 3 blank_spread⟩

theorem innerSlice_length (pages : List Page) :
    (innerSlice pages).length = pages.length - 4 := by
  simp only [innerSlice, List.length_drop, List.length_take]
  omega

/-- The fuel argument of `make_spreads_rec` is irrelevant as long as it bounds
the list length. -/
theorem make_spreads_rec_fuel :
    ∀ (f₁ f₂ : Nat) (pages : List Page), pages.length ≤ f₁ → pages.length ≤ f₂ →
      make_spreads_rec f₁ pages = make_spreads_rec f₂ pages := by
  intro f₁
  induction f₁ with
  | zero =>
      intro f₂ pages h₁ _
      have : pages = [] := List.length_eq_zero.mp (Nat.le_zero.mp h₁)
      subst this
      cases f₂ <;> rfl
  | succ f₁ ih =>
      intro f₂ pages h₁ h₂
      cases pages with
      | nil => cases f₂ <;> rfl
      | cons p rest =>
          cases f₂ with
          | zero => exact absurd h₂ (by simp)
          | succ f₂ =>
              simp only [make_spreads_rec]
              refine congrArg _ (ih f₂ (innerSlice (p :: rest)) ?_ ?_) <;>
                · have := innerSlice_length (p :: rest)
                  simp only [List.length_cons] at *
                  omega

theorem make_spreads_nil : make_spreads [] = [] := rfl

/-- Unfolding rule of `make_spreads` on a nonempty list, exactly the step the
source performs. -/
theorem make_spreads_cons (p : Page) (rest : List Page) :
    make_spreads (p :: rest) =
      headSpread (p :: rest) :: make_spreads (innerSlice (p :: rest)) := by
  show make_spreads_rec (rest.length + 1) (p :: rest) = _
  simp only [make_spreads_rec]
  refine congrArg _ ?_
  exact make_spreads_rec_fuel rest.length (innerSlice (p :: rest)).length _
    (by have := innerSlice_length (p :: rest); simp only [List.length_cons] at *; omega)
    (le_refl _)

theorem getD_cons_cons (a b : Page) (l : List Page) (i : Nat) (x : Page) :
    (a :: b :: l).getD (i + 2) x = l.getD i x := rfl

theorem getD_append_two_left (mid : List Page) (c d x : Page) :
    (mid ++ [c, d]).getD mid.length x = c := by
  rw [List.getD_append_right mid [c, d] x mid.length (le_refl _), Nat.sub_self]
  rfl

theorem getD_append_two_right (mid : List Page) (c d x : Page) :
    (mid ++ [c, d]).getD (mid.length + 1) x = d := by
  rw [List.getD_append_right mid [c, d] x (mid.length + 1) (by omega),
    Nat.add_sub_cancel_left]
  rfl

/-- Any list of length at least 2 splits off its last two elements. -/
theorem eq_append_two_of_two_le_length (l : List Page) (h : 2 ≤ l.length) :
    ∃ mid c d, l = mid ++ [c, d] := by
  cases hr : l.reverse with
  | nil => rw [← List.length_reverse, hr] at h; simp at h
  | cons x t =>
      cases t with
      | nil => rw [← List.length_reverse, hr] at h; simp at h
      | cons y t2 =>
          refine ⟨t2.reverse, y, x, ?_⟩
          rw [← List.reverse_reverse l, hr]
          simp

/-- The recurrence of `make_spreads` stated on an explicit decomposition of
the page list: the first spread takes the outer two pages from each end, and
the recursion continues on the middle. -/
theorem length_two_cons_append (a b c d : Page) (mid : List Page) :
    (a :: b :: (mid ++ [c, d])).length = mid.length + 4 := by
  simp only [List.length_cons, List.length_append, List.length_nil]

/-- The head spread of a decomposed page list picks the outer two pages from
each end. -/
theorem headSpread_decomp (a b c d : Page) (mid : List Page) :
    headSpread (a :: b :: (mid ++ [c, d])) =
      { front_left := b, front_right := c, back_left := a, back_right := d } := by
  have hfr : (a :: b :: (mid ++ [c, d])).getD
      ((a :: b :: (mid ++ [c, d])).length - 2) Page.BlankPage = c := by
    have h2 : (a :: b :: (mid ++ [c, d])).length - 2 = mid.length + 2 := by
      rw [length_two_cons_append]; omega
    rw [h2, getD_cons_cons, getD_append_two_left]
  have hbr : (a :: b :: (mid ++ [c, d])).getD
      ((a :: b :: (mid ++ [c, d])).length - 1) Page.BlankPage = d := by
    have h1 : (a :: b :: (mid ++ [c, d])).length - 1 = (mid.length + 1) + 2 := by
      rw [length_two_cons_append]; omega
    rw [h1, getD_cons_cons, getD_append_two_right]
  unfold headSpread
  rw [hfr, hbr]
  rfl

theorem innerSlice_decomp (a b c d : Page) (mid : List Page) :
    innerSlice (a :: b :: (mid ++ [c, d])) = mid := by
  unfold innerSlice
  have h3 : (a :: b :: (mid ++ [c, d])).length - 2 = mid.length + 1 + 1 := by
    rw [length_two_cons_append]; omega
  rw [h3, List.take_succ_cons, List.take_succ_cons, List.take_left]
  rfl

theorem make_spreads_decomp (a b c d : Page) (mid : List Page) :
    make_spreads (a :: b :: (mid ++ [c, d])) =
      { front_left := b, front_right := c, back_left := a, back_right := d }
      :: make_spreads mid := by
  rw [make_spreads_cons, headSpread_decomp, innerSlice_decomp]

theorem spread_at_inner (a b c d : Page) (mid : List Page) (k : Nat)
    (hk : 2 * k + 2 ≤ mid.length) :
    spread_at (a :: b :: (mid ++ [c, d])) (k + 1) = spread_at mid k := by
  have hfl : (a :: b :: (mid ++ [c, d])).getD (2 * (k + 1) + 1) Page.BlankPage
      = mid.getD (2 * k + 1) Page.BlankPage := by
    rw [show 2 * (k + 1) + 1 = (2 * k + 1) + 2 by ring, getD_cons_cons,
      List.getD_append mid [c, d] Page.BlankPage (2 * k + 1) (by omega)]
  have hbl : (a :: b :: (mid ++ [c, d])).getD (2 * (k + 1)) Page.BlankPage
      = mid.getD (2 * k) Page.BlankPage := by
    rw [show 2 * (k + 1) = 2 * k + 2 by ring, getD_cons_cons,
      List.getD_append mid [c, d] Page.BlankPage (2 * k) (by omega)]
  have hfr : (a :: b :: (mid ++ [c, d])).getD
      ((a :: b :: (mid ++ [c, d])).length - 2 - 2 * (k + 1)) Page.BlankPage
      = mid.getD (mid.length - 2 - 2 * k) Page.BlankPage := by
    have e3 : (a :: b :: (mid ++ [c, d])).length - 2 - 2 * (k + 1)
        = (mid.length - 2 - 2 * k) + 2 := by
      rw [length_two_cons_append]; omega
    rw [e3, getD_cons_cons,
      List.getD_append mid [c, d] Page.BlankPage (mid.length - 2 - 2 * k) (by omega)]
  have hbr : (a :: b :: (mid ++ [c, d])).getD
      ((a :: b :: (mid ++ [c, d])).length - 1 - 2 * (k + 1)) Page.BlankPage
      = mid.getD (mid.length - 1 - 2 * k) Page.BlankPage := by
    have e4 : (a :: b :: (mid ++ [c, d])).length - 1 - 2 * (k + 1)
        = (mid.length - 1 - 2 * k) + 2 := by
      rw [length_two_cons_append]; omega
    rw [e4, getD_cons_cons,
      List.getD_append mid [c, d] Page.BlankPage (mid.length - 1 - 2 * k) (by omega)]
  unfold spread_at
  rw [hfl, hbl, hfr, hbr]

/-- Closed form of `make_spreads` on a list whose length is a multiple
of 4. -/
theorem make_spreads_eq_map :
    ∀ (n : Nat) (pages : List Page), pages.length = n → n % 4 = 0 →
      make_spreads pages = (List.range (n / 4)).map (spread_at pages) := by
  intro n
  induction n using Nat.strong_induction_on with
  | _ n ih =>
      intro pages hlen hmod
      rcases Nat.eq_zero_or_pos n with h0 | hpos
      · subst h0
        have : pages = [] := List.length_eq_zero.mp hlen
        subst this
        rfl
      · have h4 : 4 ≤ n := by omega
        cases pages with
        | nil => simp at hlen; omega
        | cons a t =>
            cases t with
            | nil => simp at hlen; omega
            | cons b t2 =>
                obtain ⟨mid, c, d, hmid⟩ := eq_append_two_of_two_le_length t2
                  (by simp at hlen; omega)
                subst hmid
                have hmlen : mid.length = n - 4 := by simp at hlen; omega
                rw [make_spreads_decomp]
                have hrec := ih (n - 4) (by omega) mid hmlen (by omega)
                rw [hrec]
                have hdiv : n / 4 = (n - 4) / 4 + 1 := by omega
                rw [hdiv, List.range_succ_eq_map, List.map_cons, List.map_map]
                congr 1
                · show _ = headSpread (a :: b :: (mid ++ [c, d]))
                  exact (headSpread_decomp a b c d mid).symm
                · refine List.map_congr_left ?_
                  intro k hk
                  simp only [List.mem_range] at hk
                  show spread_at mid k = spread_at (a :: b :: (mid ++ [c, d])) (k + 1)
                  exact (spread_at_inner a b c d mid k (by omega)).symm

/-- The four slots of all spreads together are a permutation of the input
pages: pairing drops and duplicates nothing. -/
theorem make_spreads_perm :
    ∀ (n : Nat) (pages : List Page), pages.length = n → n % 4 = 0 →
      ((make_spreads pages).flatMap
        fun s => [s.front_left, s.front_right, s.back_left, s.back_right]).Perm pages := by
  intro n
  induction n using Nat.strong_induction_on with
  | _ n ih =>
      intro pages hlen hmod
      rcases Nat.eq_zero_or_pos n with h0 | hpos
      · subst h0
        have : pages = [] := List.length_eq_zero.mp hlen
        subst this
        simp [make_spreads_nil]
      · cases pages with
        | nil => simp at hlen; omega
        | cons a t =>
            cases t with
            | nil => simp at hlen; omega
            | cons b t2 =>
                obtain ⟨mid, c, d, hmid⟩ := eq_append_two_of_two_le_length t2
                  (by simp at hlen; omega)
                subst hmid
                have hmlen : mid.length = n - 4 := by simp at hlen; omega
                rw [make_spreads_decomp]
                have hR := ih (n - 4) (by omega) mid hmlen (by omega)
                have h1 : (mid ++ [c, d]).Perm (c :: d :: mid) := by
                  simpa using @List.perm_append_comm _ mid [c, d]
                have h2 : (a :: b :: (mid ++ [c, d])).Perm (a :: b :: c :: d :: mid) :=
                  (h1.cons b).cons a
                have h3 : (List.flatMap
                    ({ front_left := b, front_right := c, back_left := a,
                        back_right := d } :: make_spreads mid)
                    fun s => [s.front_left, s.front_right, s.back_left, s.back_right]).Perm
                    (b :: c :: a :: d :: mid) := by
                  simpa using (((hR.cons d).cons a).cons c).cons b
                have s1 : (c :: a :: (d :: mid)).Perm (a :: c :: (d :: mid)) :=
                  List.Perm.swap a c (d :: mid)
                have s2 : (b :: c :: a :: d :: mid).Perm (b :: a :: c :: d :: mid) :=
                  s1.cons b
                have s3 : (b :: a :: (c :: d :: mid)).Perm (a :: b :: (c :: d :: mid)) :=
                  List.Perm.swap a b _
                exact (h3.trans (s2.trans s3)).trans h2.symm

/-- C1: for a page sequence whose length `n` is a multiple of 4,
`make_spreads` returns exactly `n / 4` spreads; every input page appears
exactly once across all spread slots (the concatenation of the slots is a
permutation of the input, so no page is dropped or duplicated); and spread
`k` (0-indexed) has `back_left` at position `2k`, `front_left` at `2k+1`,
`front_right` at `n-2-2k` and `back_right` at `n-1-2k`, so the first spread
carries the first page on `back_left` and the last page on `back_right`. -/
theorem make_spreads_pairing (pages : List Page) (h : pages.length % 4 = 0) :
    (make_spreads pages).length = pages.length / 4
    ∧ ((make_spreads pages).flatMap
        fun s => [s.front_left, s.front_right, s.back_left, s.back_right]).Perm pages
    ∧ ∀ k, k < pages.length / 4 →
        (make_spreads pages)[k]? = some
          { front_left := pages.getD (2 * k + 1) Page.BlankPage
          , front_right := pages.getD (pages.length - 2 - 2 * k) Page.BlankPage
          , back_left := pages.getD (2 * k) Page.BlankPage
          , back_right := pages.getD (pages.length - 1 - 2 * k) Page.BlankPage } := by
  have hcf := make_spreads_eq_map pages.length pages rfl h
  refine ⟨?_, make_spreads_perm pages.length pages rfl h, ?_⟩
  · rw [hcf]
    simp
  · intro k hk
    rw [hcf, List.getElem?_map, List.getElem?_range hk]
    rfl

/-- Witness for C1 at a concrete 8-page input. -/
theorem make_spreads_pairing_witness :
    (original_pages 8).length % 4 = 0
    ∧ ((make_spreads (original_pages 8)).length = (original_pages 8).length / 4
      ∧ ((make_spreads (original_pages 8)).flatMap
          fun s => [s.front_left, s.front_right, s.back_left, s.back_right]).Perm
          (original_pages 8)
      ∧ ∀ k, k < (original_pages 8).length / 4 →
          (make_spreads (original_pages 8))[k]? = some
            { front_left := (original_pages 8).getD (2 * k + 1) Page.BlankPage
            , front_right :=
                (original_pages 8).getD ((original_pages 8).length - 2 - 2 * k) Page.BlankPage
            , back_left := (original_pages 8).getD (2 * k) Page.BlankPage
            , back_right :=
                (original_pages 8).getD ((original_pages 8).length - 1 - 2 * k) Page.BlankPage }) :=
  ⟨by decide, make_spreads_pairing (original_pages 8) (by decide)⟩

theorem pySliceTo_of_le (xs : List Page) (L : Nat) (h : L ≤ xs.length) :
    pySliceTo xs ((xs.length : Int) - (L : Int)) = xs.take (xs.length - L) := by
  unfold pySliceTo
  rw [if_neg (by omega)]
  congr 1
  omega

theorem pySliceFrom_of_le (xs : List Page) (L : Nat) (h : L ≤ xs.length) :
    pySliceFrom xs ((xs.length : Int) - (L : Int)) = xs.drop (xs.length - L) := by
  unfold pySliceFrom
  rw [if_neg (by omega)]
  congr 1
  omega

/-- Length of the padded sequence, in closed form. -/
theorem pad_pages_length (L : Nat) (pages : List Page) (h : L ≤ pages.length) :
    (pad_pages L pages).length = pages.length + (4 - pages.length % 4) % 4 := by
  by_cases hmod : pages.length % 4 = 0
  · simp only [pad_pages, hmod, ne_eq, not_true_eq_false, if_false]
    omega
  · unfold pad_pages
    rw [if_pos hmod]
    simp only [pySliceTo_of_le pages L h, pySliceFrom_of_le pages L h,
      List.length_append, List.length_take, List.length_replicate, List.length_drop]
    omega

/-- C2: for `0 ≤ lastPageCount ≤ sourcePageCount`, the padded sequence length
is the smallest multiple of 4 that is at least the source page count (hence in
particular at least the source page count). -/
theorem pad_pages_smallest_multiple (num_last_pages : Nat) (pages : List Page)
    (h : num_last_pages ≤ pages.length) :
    (pad_pages num_last_pages pages).length % 4 = 0
    ∧ pages.length ≤ (pad_pages num_last_pages pages).length
    ∧ ∀ m, m % 4 = 0 → pages.length ≤ m →
        (pad_pages num_last_pages pages).length ≤ m := by
  have hlen := pad_pages_length num_last_pages pages h
  exact ⟨by omega, by omega, fun m hm hge => by omega⟩

/-- Witness for C2 at a concrete 5-page input with one kept last page. -/
theorem pad_pages_smallest_multiple_witness :
    1 ≤ (original_pages 5).length
    ∧ ((pad_pages 1 (original_pages 5)).length % 4 = 0
      ∧ (original_pages 5).length ≤ (pad_pages 1 (original_pages 5)).length
      ∧ ∀ m, m % 4 = 0 → (original_pages 5).length ≤ m →
          (pad_pages 1 (original_pages 5)).length ≤ m) :=
  ⟨by decide, pad_pages_smallest_multiple 1 (original_pages 5) (by decide)⟩

/-- C3: when the source page count is not a multiple of 4, the padded
sequence is `head ++ blanks ++ tail` with `head` the first
`count - lastPageCount` original pages, exactly `4 - count % 4` blanks, and
`tail` the last `lastPageCount` original pages; every original page index
appears exactly once in original order, and the trailing `lastPageCount`
entries are exactly the last `lastPageCount` original pages. -/
theorem pad_pages_structure (count L : Nat) (hL : L ≤ count) (hmod : count % 4 ≠ 0) :
    pad_pages L (original_pages count)
      = (original_pages count).take (count - L)
        ++ List.replicate (4 - count % 4) Page.BlankPage
        ++ (original_pages count).drop (count - L)
    ∧ (pad_pages L (original_pages count)).filterMap original_index = List.range count
    ∧ (pad_pages L (original_pages count)).drop
        ((pad_pages L (original_pages count)).length - L)
        = (original_pages count).drop (count - L) := by
  have hlen0 : (original_pages count).length = count := by
    simp [original_pages]
  have hcond : (original_pages count).length % 4 ≠ 0 := by
    rw [hlen0]; exact hmod
  have hL' : L ≤ (original_pages count).length := by
    rw [hlen0]; exact hL
  have h1 : pad_pages L (original_pages count)
      = (original_pages count).take (count - L)
        ++ List.replicate (4 - count % 4) Page.BlankPage
        ++ (original_pages count).drop (count - L) := by
    unfold pad_pages
    rw [if_pos hcond]
    simp only [pySliceTo_of_le (original_pages count) L hL',
      pySliceFrom_of_le (original_pages count) L hL']
    rw [hlen0]
  have horig : (original_pages count).filterMap original_index = List.range count := by
    unfold original_pages
    rw [List.filterMap_map]
    exact List.filterMap_some _
  refine ⟨h1, ?_, ?_⟩
  · rw [h1, List.filterMap_append, List.filterMap_append]
    have hb : (List.replicate (4 - count % 4) Page.BlankPage).filterMap original_index
        = [] := by
      rw [List.filterMap_eq_nil_iff]
      intro a ha
      rw [List.eq_of_mem_replicate ha]
      rfl
    rw [hb, List.append_nil, ← List.filterMap_append, List.take_append_drop, horig]
  · have hlen1 : (pad_pages L (original_pages count)).length
        = count + (4 - count % 4) := by
      have h2 := pad_pages_length L (original_pages count) hL'
      rw [hlen0] at h2
      rw [h2]
      omega
    have hAB : ((original_pages count).take (count - L)
        ++ List.replicate (4 - count % 4) Page.BlankPage).length
        = count + (4 - count % 4) - L := by
      simp only [List.length_append, List.length_take, List.length_replicate, hlen0]
      omega
    rw [hlen1, h1]
    rw [show count + (4 - count % 4) - L
        = ((original_pages count).take (count - L)
          ++ List.replicate (4 - count % 4) Page.BlankPage).length from hAB.symm]
    exact List.drop_left _ _

/-- Witness for C3 at a concrete 5-page input with one kept last page. -/
theorem pad_pages_structure_witness :
    1 ≤ 5 ∧ 5 % 4 ≠ 0
    ∧ (pad_pages 1 (original_pages 5)
        = (original_pages 5).take (5 - 1)
          ++ List.replicate (4 - 5 % 4) Page.BlankPage
          ++ (original_pages 5).drop (5 - 1)
      ∧ (pad_pages 1 (original_pages 5)).filterMap original_index = List.range 5
      ∧ (pad_pages 1 (original_pages 5)).drop
          ((pad_pages 1 (original_pages 5)).length - 1)
          = (original_pages 5).drop (5 - 1)) :=
  ⟨by decide, by decide, pad_pages_structure 5 1 (by decide) (by decide)⟩

theorem max_spreads_paper (spread_size : ℚ × ℚ) (s t : OutputSheet)
    (h : s.paper_size = t.paper_size) :
    s.max_spreads spread_size = t.max_spreads spread_size := by
  simp [OutputSheet.max_spreads, OutputSheet.spread_grid_rows,
    OutputSheet.spread_grid_cols, h]

theorem is_full_iff (spread_size : ℚ × ℚ) (s : OutputSheet) :
    s.is_full spread_size = true ↔ s.max_spreads spread_size ≤ (s.spreads.length : Int) := by
  simp [OutputSheet.is_full]

theorem sheets_needed_of_le (c t : Nat) (hc : 1 ≤ c) (h : t ≤ c) :
    sheets_needed c t = 1 := by
  unfold sheets_needed
  rw [Nat.sub_eq_zero_of_le h, Nat.zero_add, Nat.div_eq_of_lt (by omega)]

theorem pred_div (c r : Nat) (hc : 1 ≤ c) : ((r + 1) - c + c - 1) / c = r / c := by
  rcases le_or_lt (r + 1) c with h | h
  · rw [Nat.sub_eq_zero_of_le h, Nat.zero_add, Nat.div_eq_of_lt (by omega),
      Nat.div_eq_of_lt (by omega)]
  · rw [show (r + 1) - c + c - 1 = r by omega]

theorem sheets_needed_step (c r : Nat) (hc : 1 ≤ c) :
    sheets_needed c (c + (r + 1)) = 1 + sheets_needed c (1 + r) := by
  unfold sheets_needed
  rw [Nat.add_sub_cancel_left, show r + 1 + c - 1 = r + c by omega,
    Nat.add_div_right r (by omega), show 1 + r = r + 1 by omega, pred_div c r hc]
  omega

theorem sheets_needed_eq_ceil (c r : Nat) (hc : 1 ≤ c) (hr : 1 ≤ r) :
    sheets_needed c r = (r + c - 1) / c := by
  unfold sheets_needed
  rw [show r + c - 1 = (r - 1) + c by omega, Nat.add_div_right (r - 1) (by omega)]
  rcases le_or_lt c r with h | h
  · rw [show r - c + c - 1 = r - 1 by omega]
    omega
  · rw [show r - c = 0 by omega, Nat.zero_add,
      Nat.div_eq_of_lt (show c - 1 < c by omega),
      Nat.div_eq_of_lt (show r - 1 < c by omega)]

/-- Main invariant of the packing loop: starting from a non-overfull last
sheet, the loop succeeds and appends sheets that (a) all carry the paper size
of the run, (b) never exceed the capacity, (c) hold exactly the pending
spreads in order, (d) are exactly full except possibly the final one, and
(e) number exactly `sheets_needed capacity total`. -/
theorem lay_out_spreads_go_spec (spread_size input_page_size : ℚ × ℚ)
    (hcap : 1 ≤ OutputSheet.max_spreads spread_size ⟨input_page_size, []⟩) :
    ∀ (rest : List Spread) (prev : List OutputSheet) (cur : OutputSheet),
      cur.paper_size = input_page_size →
      cur.spreads.length ≤ sheet_capacity spread_size input_page_size →
      ∃ out : List OutputSheet,
        lay_out_spreads_go spread_size input_page_size prev cur rest
          = Except.ok (prev ++ out)
        ∧ (∀ s ∈ out, s.paper_size = input_page_size
            ∧ s.spreads.length ≤ sheet_capacity spread_size input_page_size)
        ∧ (out.flatMap fun s => s.spreads) = cur.spreads ++ rest
        ∧ (∀ i, i + 1 < out.length →
            (out.getD i ⟨input_page_size, []⟩).spreads.length
              = sheet_capacity spread_size input_page_size)
        ∧ out.length = sheets_needed (sheet_capacity spread_size input_page_size)
            (cur.spreads.length + rest.length) := by
  have hcapN1 : 1 ≤ sheet_capacity spread_size input_page_size := by
    unfold sheet_capacity
    omega
  have hfresh : (⟨input_page_size, []⟩ : OutputSheet).is_full spread_size = false := by
    simp only [OutputSheet.is_full, decide_eq_false_iff_not]
    show ¬ (OutputSheet.max_spreads spread_size ⟨input_page_size, []⟩ ≤ ((0 : Nat) : Int))
    omega
  intro rest
  induction rest with
  | nil =>
      intro prev cur hp hlen
      refine ⟨[cur], rfl, ?_, by simp, ?_, ?_⟩
      · intro s hs
        rw [List.mem_singleton] at hs
        subst hs
        exact ⟨hp, hlen⟩
      · intro i hi
        simp only [List.length_singleton] at hi
        omega
      · simp only [List.length_singleton, List.length_nil, Nat.add_zero]
        rw [sheets_needed_of_le _ _ hcapN1 hlen]
  | cons sp rest ih =>
      intro prev cur hp hlen
      have hcur_max : cur.max_spreads spread_size
          = OutputSheet.max_spreads spread_size ⟨input_page_size, []⟩ :=
        max_spreads_paper spread_size cur ⟨input_page_size, []⟩ (by rw [hp])
      by_cases hfull : cur.is_full spread_size = true
      · -- the last sheet is full: a fresh sheet is started
        have hlen_eq : cur.spreads.length = sheet_capacity spread_size input_page_size := by
          have h1 := (is_full_iff spread_size cur).mp hfull
          rw [hcur_max] at h1
          unfold sheet_capacity at hlen ⊢
          omega
        have hadd : OutputSheet.add_spread spread_size ⟨input_page_size, []⟩ sp
            = Except.ok ⟨input_page_size, [sp]⟩ := by
          unfold OutputSheet.add_spread
          rw [hfresh]
          rfl
        have hstep : lay_out_spreads_go spread_size input_page_size prev cur (sp :: rest)
            = lay_out_spreads_go spread_size input_page_size (prev ++ [cur])
                ⟨input_page_size, [sp]⟩ rest := by
          simp only [lay_out_spreads_go]
          rw [if_pos hfull, hadd]
        obtain ⟨out, hrun, hmem, hflat, hfull2, hcount⟩ :=
          ih (prev ++ [cur]) ⟨input_page_size, [sp]⟩ rfl
            (by show 1 ≤ sheet_capacity spread_size input_page_size; exact hcapN1)
        refine ⟨cur :: out, ?_, ?_, ?_, ?_, ?_⟩
        · rw [hstep, hrun]
          simp [List.append_assoc]
        · intro s hs
          rw [List.mem_cons] at hs
          rcases hs with rfl | hs
          · exact ⟨hp, le_of_eq hlen_eq⟩
          · exact hmem s hs
        · simp only [List.flatMap_cons]
          rw [hflat]
          rfl
        · intro i hi
          cases i with
          | zero =>
              simp only [List.getD_cons_zero]
              exact hlen_eq
          | succ i =>
              simp only [List.getD_cons_succ]
              apply hfull2
              simp only [List.length_cons] at hi
              omega
        · simp only [List.length_cons]
          rw [hcount, hlen_eq, List.length_cons, sheets_needed_step _ _ hcapN1]
          show sheets_needed (sheet_capacity spread_size input_page_size)
              (1 + rest.length) + 1 = _
          omega
      · -- the last sheet still has room: the spread is appended to it
        have hnotfull_lt : cur.spreads.length
            < sheet_capacity spread_size input_page_size := by
          have h2 : ¬ (cur.max_spreads spread_size ≤ (cur.spreads.length : Int)) :=
            fun hcontra => hfull ((is_full_iff spread_size cur).mpr hcontra)
          rw [hcur_max] at h2
          unfold sheet_capacity
          omega
        have hadd2 : cur.add_spread spread_size sp
            = Except.ok { cur with spreads := cur.spreads ++ [sp] } := by
          unfold OutputSheet.add_spread
          rw [if_neg hfull]
        have hstep2 : lay_out_spreads_go spread_size input_page_size prev cur (sp :: rest)
            = lay_out_spreads_go spread_size input_page_size prev
                { cur with spreads := cur.spreads ++ [sp] } rest := by
          simp only [lay_out_spreads_go]
          rw [if_neg hfull, hadd2]
        obtain ⟨out, hrun, hmem, hflat, hfull2, hcount⟩ :=
          ih prev { cur with spreads := cur.spreads ++ [sp] } hp
            (by simp only [List.length_append, List.length_singleton, List.length_nil, List.length_cons]; omega)
        refine ⟨out, ?_, hmem, ?_, hfull2, ?_⟩
        · rw [hstep2]
          exact hrun
        · rw [hflat]
          simp [List.append_assoc]
        · rw [hcount]
          have harg : ({ cur with spreads := cur.spreads ++ [sp] } :
              OutputSheet).spreads.length + rest.length
              = cur.spreads.length + (sp :: rest).length := by
            show (cur.spreads ++ [sp]).length + rest.length = _
            simp only [List.length_append, List.length_singleton, List.length_nil,
              List.length_cons]
            omega
          rw [harg]

/-- C4 (amended): provided the capacity `rows*cols` of a sheet is at least 1,
packing succeeds; no sheet ever holds more than `capacity` spreads; spreads
are placed in encounter order, each sheet filled exactly to capacity before
the next is started; a full sheet rejects any further spread with the
sheet-full exception; and the number of sheets is `ceil(spreadCount /
capacity)` when there is at least one spread, while an empty spread list
still yields one (empty) sheet. -/
theorem lay_out_spreads_spec (spread_size input_page_size : ℚ × ℚ)
    (spreads : List Spread)
    (hcap : 1 ≤ OutputSheet.max_spreads spread_size ⟨input_page_size, []⟩) :
    ∃ sheets : List OutputSheet,
      lay_out_spreads spread_size input_page_size spreads = Except.ok sheets
      ∧ (∀ s ∈ sheets, s.spreads.length ≤ sheet_capacity spread_size input_page_size)
      ∧ (sheets.flatMap fun s => s.spreads) = spreads
      ∧ (∀ i, i + 1 < sheets.length →
          (sheets.getD i ⟨input_page_size, []⟩).spreads.length
            = sheet_capacity spread_size input_page_size)
      ∧ (spreads ≠ [] → sheets.length
          = (spreads.length + sheet_capacity spread_size input_page_size - 1)
            / sheet_capacity spread_size input_page_size)
      ∧ (spreads = [] → sheets.length = 1)
      ∧ (∀ (s : OutputSheet) (sp : Spread), s.is_full spread_size = true →
          s.add_spread spread_size sp = Except.error sheet_full_error) := by
  have hcapN1 : 1 ≤ sheet_capacity spread_size input_page_size := by
    unfold sheet_capacity
    omega
  obtain ⟨out, hrun, hmem, hflat, hfull2, hcount⟩ :=
    lay_out_spreads_go_spec spread_size input_page_size hcap spreads []
      ⟨input_page_size, []⟩ rfl (by show 0 ≤ _; omega)
  have hc2 : out.length = sheets_needed (sheet_capacity spread_size input_page_size)
      spreads.length := by
    rw [hcount]
    congr 1
    show 0 + spreads.length = spreads.length
    omega
  refine ⟨out, ?_, ?_, ?_, hfull2, ?_, ?_, ?_⟩
  · unfold lay_out_spreads
    rw [hrun]
    rfl
  · intro s hs
    exact (hmem s hs).2
  · rw [hflat]
    rfl
  · intro hne
    rw [hc2, sheets_needed_eq_ceil _ _ hcapN1 (List.length_pos.mpr hne)]
  · intro heq
    subst heq
    rw [hc2]
    exact sheets_needed_of_le _ _ hcapN1 (by show (0 : Nat) ≤ _; omega)
  · intro s sp hf
    unfold OutputSheet.add_spread
    rw [if_pos hf]

/-- Witness for C4 at a concrete configuration: spread size 1 inch × 1 inch,
sheet 2 inch × 2 inch (capacity 4), five spreads (needing 2 sheets). -/
theorem lay_out_spreads_spec_witness :
    1 ≤ OutputSheet.max_spreads (1, 1) ⟨(2, 2), []⟩
    ∧ (∃ sheets : List OutputSheet,
        lay_out_spreads (1, 1) (2, 2) (List.replicate 5 blank_spread) = Except.ok sheets
        ∧ (∀ s ∈ sheets, s.spreads.length ≤ sheet_capacity (1, 1) (2, 2))
        ∧ (sheets.flatMap fun s => s.spreads) = List.replicate 5 blank_spread
        ∧ (∀ i, i + 1 < sheets.length →
            (sheets.getD i ⟨(2, 2), []⟩).spreads.length = sheet_capacity (1, 1) (2, 2))
        ∧ (List.replicate 5 blank_spread ≠ [] → sheets.length
            = ((List.replicate 5 blank_spread).length + sheet_capacity (1, 1) (2, 2) - 1)
              / sheet_capacity (1, 1) (2, 2))
        ∧ (List.replicate 5 blank_spread = [] → sheets.length = 1)
        ∧ (∀ (s : OutputSheet) (sp : Spread), s.is_full (1, 1) = true →
            s.add_spread (1, 1) sp = Except.error sheet_full_error)) :=
  ⟨by norm_num [OutputSheet.max_spreads, OutputSheet.spread_grid_rows,
      OutputSheet.spread_grid_cols],
    lay_out_spreads_spec (1, 1) (2, 2) (List.replicate 5 blank_spread)
      (by norm_num [OutputSheet.max_spreads, OutputSheet.spread_grid_rows,
        OutputSheet.spread_grid_cols])⟩

/-- C4 counterexample to the sheet-count clause as stated: with an empty
spread list the code still creates one (empty) sheet, while
`ceil(spreadCount / capacity) = ceil(0 / 4) = 0`. -/
theorem lay_out_spreads_empty_counterexample :
    lay_out_spreads (1, 1) (2, 2) [] = Except.ok [⟨(2, 2), []⟩]
    ∧ sheet_capacity (1, 1) (2, 2) = 4
    ∧ (([] : List Spread).length + 4 - 1) / 4 = 0
    ∧ ¬ ([(⟨(2, 2), []⟩ : OutputSheet)].length
        = (([] : List Spread).length + 4 - 1) / 4) := by
  refine ⟨rfl, ?_, by decide, by decide⟩
  norm_num [sheet_capacity, OutputSheet.max_spreads, OutputSheet.spread_grid_rows,
    OutputSheet.spread_grid_cols]
  rfl

/-- C5 (amended): if the computed capacity is 0 (a spread does not fit on the
physical sheet) and there is at least one spread to place, packing terminates
with an error and produces no sheet list, rather than looping forever; the
error raised is the internal sheet-full invariant exception of `add_spread`,
not a dedicated configuration error. -/
theorem lay_out_spreads_zero_capacity (spread_size input_page_size : ℚ × ℚ)
    (spreads : List Spread)
    (hcap : OutputSheet.max_spreads spread_size ⟨input_page_size, []⟩ ≤ 0)
    (hne : spreads ≠ []) :
    lay_out_spreads spread_size input_page_size spreads
      = Except.error sheet_full_error := by
  cases spreads with
  | nil => exact absurd rfl hne
  | cons sp rest =>
      have hfull : (⟨input_page_size, []⟩ : OutputSheet).is_full spread_size = true := by
        rw [is_full_iff]
        show OutputSheet.max_spreads spread_size ⟨input_page_size, []⟩ ≤ ((0 : Nat) : Int)
        omega
      have hadd : OutputSheet.add_spread spread_size ⟨input_page_size, []⟩ sp
          = Except.error sheet_full_error := by
        unfold OutputSheet.add_spread
        rw [if_pos hfull]
      unfold lay_out_spreads
      simp only [lay_out_spreads_go]
      rw [if_pos hfull, hadd]

/-- Witness for C5 at a concrete configuration: spread 2 inch × 2 inch on a
1 inch × 1 inch sheet (capacity 0), one spread to place. -/
theorem lay_out_spreads_zero_capacity_witness :
    (OutputSheet.max_spreads (2, 2) ⟨(1, 1), []⟩ ≤ 0 ∧ [blank_spread] ≠ [])
    ∧ lay_out_spreads (2, 2) (1, 1) [blank_spread] = Except.error sheet_full_error :=
  ⟨⟨by norm_num [OutputSheet.max_spreads, OutputSheet.spread_grid_rows,
      OutputSheet.spread_grid_cols], by decide⟩,
    lay_out_spreads_zero_capacity (2, 2) (1, 1) [blank_spread]
      (by norm_num [OutputSheet.max_spreads, OutputSheet.spread_grid_rows,
        OutputSheet.spread_grid_cols])
      (by decide)⟩

/-- C5 counterexample to the claim as stated: at capacity 0 with one spread,
the run fails with the internal sheet-full invariant exception itself, so no
distinct configuration error is raised (and the loop had already created
sheets internally before raising). -/
theorem lay_out_spreads_zero_capacity_counterexample :
    lay_out_spreads (2, 2) (1, 1) [blank_spread] = Except.error sheet_full_error
    ∧ ¬ fails_with_configuration_error (lay_out_spreads (2, 2) (1, 1) [blank_spread]) := by
  have hfull : (⟨(1, 1), []⟩ : OutputSheet).is_full (2, 2) = true := by
    rw [is_full_iff]
    norm_num [OutputSheet.max_spreads, OutputSheet.spread_grid_rows,
      OutputSheet.spread_grid_cols]
  have hadd : OutputSheet.add_spread (2, 2) ⟨(1, 1), []⟩ blank_spread
      = Except.error sheet_full_error := by
    unfold OutputSheet.add_spread
    rw [if_pos hfull]
  have h : lay_out_spreads (2, 2) (1, 1) [blank_spread]
      = Except.error sheet_full_error := by
    unfold lay_out_spreads
    simp only [lay_out_spreads_go]
    rw [if_pos hfull, hadd]
  refine ⟨h, ?_⟩
  rintro ⟨e, he, hne⟩
  rw [h] at he
  injection he with h2
  exact hne h2.symm

/-- C7 (amended): with cut-line marking enabled, every page slot of every
placed spread, including slots holding a blank page, emits exactly one
rectangle-outline instruction positioned at that slot placement origin
(converted to points); the rectangle is sized
`inputPageWidth * scale` by `inputPageHeight * scale` (in points), that is,
half the spread width by the full spread height, not
`spreadWidth * scale` by `spreadHeight * scale`; a blank slot emits no
page-draw instruction but still gets its rectangle; and the stroke state is
`markColor` (components divided by 255) with width `markWidth * 72`. -/
theorem cut_marks_per_slot (input_page_size : ℚ × ℚ) (scale : ℚ)
    (mark_color : Nat × Nat × Nat) (mark_width : ℚ) (slots : List (Page × ℚ × ℚ)) :
    (side_output true input_page_size scale mark_color mark_width slots).rects
      = slots.map (fun e =>
          { left := e.2.1 * 72, bottom := e.2.2 * 72
          , width := input_page_size.1 * scale * 72
          , height := input_page_size.2 * scale * 72 })
    ∧ (side_output true input_page_size scale mark_color mark_width slots).draws
      = slots.filterMap (fun e =>
          match e.1 with
          | Page.BlankPage => none
          | Page.OriginalPage n => some
              { page_number := n, scale_factor := scale
              , translate_x := e.2.1 * 72, translate_y := e.2.2 * 72 })
    ∧ (side_output true input_page_size scale mark_color mark_width slots).stroke
      = { color_r := (mark_color.1 : ℚ) / 255
        , color_g := (mark_color.2.1 : ℚ) / 255
        , color_b := (mark_color.2.2 : ℚ) / 255
        , width := mark_width * 72 }
    ∧ input_page_size.1 * scale * 72 = (input_page_size.1 * scale * 2) / 2 * 72
    ∧ input_page_size.2 * scale * 72 = (input_page_size.2 * scale) * 72 := by
  refine ⟨?_, ?_, rfl, by ring, by ring⟩
  · show slots.flatMap _ = _
    induction slots with
    | nil => rfl
    | cons e t ih =>
        rw [List.flatMap_cons, ih, List.map_cons]
        simp [add_page]
  · show slots.flatMap _ = _
    induction slots with
    | nil => rfl
    | cons e t ih =>
        rw [List.flatMap_cons, ih, List.filterMap_cons]
        cases he : e.1 with
        | BlankPage => simp [add_page, he]
        | OriginalPage n => simp [add_page, he]

/-- C7 counterexample to the rectangle size as stated: at input page size
2 inch by 3 inch and scale 1/4, the emitted rectangle is 36 by 54 points
(`pageWidth * scale * 72` by `pageHeight * scale * 72`), while
`spreadWidth * scale * 72` is 18 points and `spreadHeight * scale * 72` is
27/2 points (the spread size being `(pageWidth * scale * 2, pageHeight *
scale)` as computed in `impose`). -/
theorem cut_marks_size_counterexample :
    (side_output true (2, 3) (1/4) (187, 187, 187) (1/100)
        [(Page.BlankPage, 0, 0)]).rects
      = [{ left := 0, bottom := 0, width := 36, height := 54 }]
    ∧ (side_output true (2, 3) (1/4) (187, 187, 187) (1/100)
        [(Page.BlankPage, 0, 0)]).draws = []
    ∧ ((2 : ℚ) * (1/4) * 2) * (1/4) * 72 = 18
    ∧ ((3 : ℚ) * (1/4)) * (1/4) * 72 = (27 : ℚ)/2
    ∧ (36 : ℚ) ≠ 18
    ∧ (54 : ℚ) ≠ (27 : ℚ)/2 := by
  refine ⟨?_, ?_, by norm_num, by norm_num, by norm_num, by norm_num⟩
  · simp only [side_output, List.flatMap_cons, List.flatMap_nil, add_page, if_true,
      List.append_nil]
    norm_num
  · simp only [side_output, List.flatMap_cons, List.flatMap_nil, add_page,
      List.append_nil]

theorem flatMap_congr {α β : Type} {l : List α} {f g : α → List β}
    (h : ∀ a ∈ l, f a = g a) : l.flatMap f = l.flatMap g := by
  induction l with
  | nil => rfl
  | cons a t ih =>
      simp only [List.flatMap_cons]
      rw [h a (by simp), ih (fun x hx => h x (by simp [hx]))]

/-- Grid coordinates assigned by the `iter_spreads` loop, starting from an
arbitrary linear index `i`: entry `j` gets `((i+j) mod cols, (i+j) div
cols)`. -/
theorem iter_spreads_go_eq (cols : Int) (hc : 1 ≤ cols) :
    ∀ (l : List Spread) (i : Nat),
      iter_spreads_go cols (i % cols.toNat) (i / cols.toNat) l
        = (List.range l.length).map
            (fun j => ((i + j) % cols.toNat, (i + j) / cols.toNat,
              l.getD j default)) := by
  have hc0 : 0 < cols.toNat := by omega
  intro l
  induction l with
  | nil => intro i; rfl
  | cons sp t ih =>
      intro i
      rw [List.length_cons, List.range_succ_eq_map, List.map_cons, List.map_map]
      simp only [iter_spreads_go]
      congr 1
      have hmod_lt : i % cols.toNat < cols.toNat := Nat.mod_lt _ hc0
      have hd := Nat.div_add_mod i cols.toNat
      by_cases hwrap : cols ≤ ((i % cols.toNat : Nat) + 1 : Int)
      · rw [if_pos hwrap]
        have hm : i % cols.toNat = cols.toNat - 1 := by omega
        have e1 : i + 1 = cols.toNat * (i / cols.toNat + 1) := by
          rw [Nat.mul_add, Nat.mul_one]
          omega
        have key1 : (i + 1) % cols.toNat = 0 := by
          rw [e1]
          exact Nat.mul_mod_right _ _
        have key2 : (i + 1) / cols.toNat = i / cols.toNat + 1 := by
          rw [e1]
          exact Nat.mul_div_cancel_left _ hc0
        have hrec := ih (i + 1)
        rw [key1, key2] at hrec
        rw [hrec]
        refine List.map_congr_left ?_
        intro j hj
        rw [show i + 1 + j = i + (j + 1) from by omega]
        rfl
      · rw [if_neg hwrap]
        have hlt : i % cols.toNat + 1 < cols.toNat := by omega
        have e1 : i + 1 = cols.toNat * (i / cols.toNat) + (i % cols.toNat + 1) := by
          omega
        have key1 : (i + 1) % cols.toNat = i % cols.toNat + 1 := by
          rw [e1, Nat.mul_add_mod, Nat.mod_eq_of_lt hlt]
        have key2 : (i + 1) / cols.toNat = i / cols.toNat := by
          rw [e1, Nat.mul_add_div hc0, Nat.div_eq_of_lt hlt, Nat.add_zero]
        have hrec := ih (i + 1)
        rw [key1, key2] at hrec
        rw [hrec]
        refine List.map_congr_left ?_
        intro j hj
        rw [show i + 1 + j = i + (j + 1) from by omega]
        rfl

/-- `iter_spreads` assigns the `j`-th spread of a sheet the grid coordinates
`(j mod cols, j div cols)`: row-major order, `x` wrapping at the column
count. -/
theorem iter_spreads_eq (spread_size : ℚ × ℚ) (s : OutputSheet)
    (hc : 1 ≤ s.spread_grid_cols spread_size) :
    s.iter_spreads spread_size
      = (List.range s.spreads.length).map
          (fun j => (j % (s.spread_grid_cols spread_size).toNat,
            j / (s.spread_grid_cols spread_size).toNat,
            s.spreads.getD j default)) := by
  have h := iter_spreads_go_eq (s.spread_grid_cols spread_size) hc s.spreads 0
  rw [Nat.zero_mod, Nat.zero_div] at h
  unfold OutputSheet.iter_spreads
  rw [h]
  refine List.map_congr_left ?_
  intro j hj
  rw [Nat.zero_add]

/-- C8: grid coordinates are assigned row-major (`gx = j mod cols`,
`gy = j div cols`, `gx` wrapping at the column count); the four page
placements of the spread at `(gx, gy)` are `front_left` at
`(spreadWidth * gx, spreadHeight * gy)`, `front_right` at
`(spreadWidth * (gx + 0.5), spreadHeight * gy)`, `back_left` at
`(sheetWidth - spreadWidth * (gx + 0.5), spreadHeight * gy)` and
`back_right` at `(sheetWidth - spreadWidth * (gx + 1), spreadHeight * gy)`;
and every page-draw instruction carries the uniform scale factor `scale`
and the translation `72 * origin` of its slot. -/
theorem write_sheets_placements (spread_size : ℚ × ℚ) (output_sheet_width : ℚ)
    (scale : ℚ) (mark_cut_lines : Bool) (input_page_size : ℚ × ℚ)
    (mark_color : Nat × Nat × Nat) (mark_width : ℚ) (sheet : OutputSheet)
    (hc : 1 ≤ sheet.spread_grid_cols spread_size) :
    sheet.iter_spreads spread_size
      = (List.range sheet.spreads.length).map
          (fun j => (j % (sheet.spread_grid_cols spread_size).toNat,
            j / (sheet.spread_grid_cols spread_size).toNat,
            sheet.spreads.getD j default))
    ∧ sheet_front_slots spread_size sheet
      = (List.range sheet.spreads.length).flatMap (fun j =>
          [ ((sheet.spreads.getD j default).front_left,
              spread_size.1
                * ((j % (sheet.spread_grid_cols spread_size).toNat : Nat) : ℚ),
              spread_size.2
                * ((j / (sheet.spread_grid_cols spread_size).toNat : Nat) : ℚ))
          , ((sheet.spreads.getD j default).front_right,
              spread_size.1
                * (((j % (sheet.spread_grid_cols spread_size).toNat : Nat) : ℚ) + 0.5),
              spread_size.2
                * ((j / (sheet.spread_grid_cols spread_size).toNat : Nat) : ℚ)) ])
    ∧ sheet_back_slots spread_size output_sheet_width sheet
      = (List.range sheet.spreads.length).flatMap (fun j =>
          [ ((sheet.spreads.getD j default).back_left,
              output_sheet_width - spread_size.1
                * (((j % (sheet.spread_grid_cols spread_size).toNat : Nat) : ℚ) + 0.5),
              spread_size.2
                * ((j / (sheet.spread_grid_cols spread_size).toNat : Nat) : ℚ))
          , ((sheet.spreads.getD j default).back_right,
              output_sheet_width - spread_size.1
                * (((j % (sheet.spread_grid_cols spread_size).toNat : Nat) : ℚ) + 1),
              spread_size.2
                * ((j / (sheet.spread_grid_cols spread_size).toNat : Nat) : ℚ)) ])
    ∧ ∀ (slots : List (Page × ℚ × ℚ)) (d : DrawCmd),
        d ∈ (side_output mark_cut_lines input_page_size scale mark_color mark_width
            slots).draws →
          d.scale_factor = scale
          ∧ ∃ sl ∈ slots, sl.1 = Page.OriginalPage d.page_number
              ∧ d.translate_x = sl.2.1 * 72 ∧ d.translate_y = sl.2.2 * 72 := by
  have hiter := iter_spreads_eq spread_size sheet hc
  refine ⟨hiter, ?_, ?_, ?_⟩
  · unfold sheet_front_slots
    rw [hiter, List.flatMap_map]
  · unfold sheet_back_slots
    rw [hiter, List.flatMap_map]
    refine flatMap_congr ?_
    intro j hj
    simp only [Function.comp_apply]
    ring_nf
  · intro slots d hd
    obtain ⟨e, he, hd2⟩ := List.mem_flatMap.mp hd
    cases hp : e.1 with
    | BlankPage =>
        rw [hp] at hd2
        simp [add_page] at hd2
    | OriginalPage n =>
        rw [hp] at hd2
        simp only [add_page, List.mem_singleton] at hd2
        subst hd2
        exact ⟨rfl, e, he, by rw [hp], rfl, rfl⟩

/-- Witness for C8 at a concrete sheet: spread size 1 inch by 1 inch on a
2 inch by 2 inch sheet (2 columns), three spreads. -/
theorem write_sheets_placements_witness :
    1 ≤ demo_sheet.spread_grid_cols (1, 1)
    ∧ (demo_sheet.iter_spreads (1, 1)
        = (List.range demo_sheet.spreads.length).map
            (fun j => (j % (demo_sheet.spread_grid_cols (1, 1)).toNat,
              j / (demo_sheet.spread_grid_cols (1, 1)).toNat,
              demo_sheet.spreads.getD j default))
      ∧ sheet_front_slots (1, 1) demo_sheet
        = (List.range demo_sheet.spreads.length).flatMap (fun j =>
            [ ((demo_sheet.spreads.getD j default).front_left,
                (1, 1).1 * ((j % (demo_sheet.spread_grid_cols (1, 1)).toNat : Nat) : ℚ),
                (1, 1).2 * ((j / (demo_sheet.spread_grid_cols (1, 1)).toNat : Nat) : ℚ))
            , ((demo_sheet.spreads.getD j default).front_right,
                (1, 1).1
                  * (((j % (demo_sheet.spread_grid_cols (1, 1)).toNat : Nat) : ℚ) + 0.5),
                (1, 1).2
                  * ((j / (demo_sheet.spread_grid_cols (1, 1)).toNat : Nat) : ℚ)) ])
      ∧ sheet_back_slots (1, 1) 2 demo_sheet
        = (List.range demo_sheet.spreads.length).flatMap (fun j =>
            [ ((demo_sheet.spreads.getD j default).back_left,
                2 - (1, 1).1
                  * (((j % (demo_sheet.spread_grid_cols (1, 1)).toNat : Nat) : ℚ) + 0.5),
                (1, 1).2
                  * ((j / (demo_sheet.spread_grid_cols (1, 1)).toNat : Nat) : ℚ))
            , ((demo_sheet.spreads.getD j default).back_right,
                2 - (1, 1).1
                  * (((j % (demo_sheet.spread_grid_cols (1, 1)).toNat : Nat) : ℚ) + 1),
                (1, 1).2
                  * ((j / (demo_sheet.spread_grid_cols (1, 1)).toNat : Nat) : ℚ)) ])
      ∧ ∀ (slots : List (Page × ℚ × ℚ)) (d : DrawCmd),
          d ∈ (side_output false (2, 2) (1/2) (187, 187, 187) (1/100) slots).draws →
            d.scale_factor = (1/2)
            ∧ ∃ sl ∈ slots, sl.1 = Page.OriginalPage d.page_number
                ∧ d.translate_x = sl.2.1 * 72 ∧ d.translate_y = sl.2.2 * 72) :=
  ⟨by norm_num [demo_sheet, OutputSheet.spread_grid_cols],
    write_sheets_placements (1, 1) 2 (1/2) false (2, 2) (187, 187, 187) (1/100)
      demo_sheet
      (by norm_num [demo_sheet, OutputSheet.spread_grid_cols])⟩

/-- When all input pages share one size and that size gives a positive sheet
capacity, the whole `impose` pipeline succeeds. -/
theorem impose_uniform (input_pages : List InputPage) (scale : ℚ) (L : Nat)
    (m : Bool) (mc : Nat × Nat × Nat) (mw : ℚ) (sz : ℚ × ℚ)
    (hsz : (input_pages.map page_size).dedup = [sz])
    (hcap : 1 ≤ OutputSheet.max_spreads (sz.1 * scale * 2, sz.2 * scale) ⟨sz, []⟩) :
    ∃ out, impose input_pages scale L m mc mw = Except.ok out := by
  simp only [impose]
  rw [hsz]
  rw [if_neg (by simp)]
  simp only [List.headD_cons]
  obtain ⟨out, hrun, -, -, -, -⟩ :=
    lay_out_spreads_go_spec (sz.1 * scale * 2, sz.2 * scale) sz hcap
      (make_spreads (pad_pages L (original_pages input_pages.length))) []
      ⟨sz, []⟩ rfl (by show (0 : Nat) ≤ _; omega)
  have hlay : lay_out_spreads (sz.1 * scale * 2, sz.2 * scale) sz
      (make_spreads (pad_pages L (original_pages input_pages.length)))
      = Except.ok ([] ++ out) := hrun
  rw [hlay]
  exact ⟨_, rfl⟩

/-- C9: when the source pages carry more than one distinct physical page
size, `impose` fails with the mixed-page-size error before any layout is
computed, and no output is produced. -/
theorem impose_mixed_sizes (input_pages : List InputPage) (scale : ℚ)
    (num_last_pages : Nat) (mark_cut_lines : Bool) (mark_color : Nat × Nat × Nat)
    (mark_width : ℚ)
    (h : 2 ≤ ((input_pages.map page_size).dedup).length) :
    impose input_pages scale num_last_pages mark_cut_lines mark_color mark_width
      = Except.error multiple_sizes_error := by
  simp only [impose]
  rw [if_pos (show ((input_pages.map page_size).dedup).length ≠ 1 from by omega)]

/-- Witness for C9 with two pages of different sizes (1 inch square and
2 inch square). -/
theorem impose_mixed_sizes_witness :
    2 ≤ ((([⟨72, 72, 1⟩, ⟨144, 144, 1⟩] : List InputPage).map page_size).dedup).length
    ∧ impose [⟨72, 72, 1⟩, ⟨144, 144, 1⟩] (1/2) 0 false (187, 187, 187) (1/100)
        = Except.error multiple_sizes_error := by
  have h : 2 ≤ ((([⟨72, 72, 1⟩, ⟨144, 144, 1⟩] : List InputPage).map
      page_size).dedup).length := by
    rw [List.map_cons, List.map_cons, List.map_nil]
    rw [show page_size ⟨72, 72, 1⟩ = ((1 : ℚ), (1 : ℚ)) from by norm_num [page_size]]
    rw [show page_size ⟨144, 144, 1⟩ = ((2 : ℚ), (2 : ℚ)) from by norm_num [page_size]]
    rw [List.dedup_cons_of_not_mem (by norm_num [Prod.ext_iff]),
      List.dedup_cons_of_not_mem (by simp), List.dedup_nil]
    simp
  exact ⟨h, impose_mixed_sizes _ _ _ _ _ _ h⟩

/-- C10: a zero-page input is rejected at the public interface: the set of
distinct page sizes is empty rather than a singleton, so `impose` raises the
mixed-page-size exception, even though the padding and pairing stages both
map an empty sequence to an empty sequence. -/
theorem impose_zero_pages (scale : ℚ) (num_last_pages : Nat) (mark_cut_lines : Bool)
    (mark_color : Nat × Nat × Nat) (mark_width : ℚ) :
    impose [] scale num_last_pages mark_cut_lines mark_color mark_width
      = Except.error multiple_sizes_error
    ∧ (∀ L : Nat, pad_pages L [] = [])
    ∧ make_spreads [] = [] := by
  refine ⟨rfl, ?_, rfl⟩
  intro L
  rfl

/-- C6 (evaluation of the code at the failing input): with 2 source pages
and `lastPageCount = 3 > 2`, the code does not reject the run anywhere: the
negative Python slice endpoint clamps, `pad_pages` silently returns
`[page 0, blank, blank, page 1]`, and a full `impose` run on a 2-page
document succeeds. -/
theorem last_pages_exceeding_not_rejected :
    pad_pages 3 [Page.OriginalPage 0, Page.OriginalPage 1]
      = [Page.OriginalPage 0, Page.BlankPage, Page.BlankPage, Page.OriginalPage 1]
    ∧ ∃ out, impose [⟨144, 144, 1⟩, ⟨144, 144, 1⟩] (1/2) 3 false (187, 187, 187) (1/100)
        = Except.ok out := by
  refine ⟨by decide, ?_⟩
  refine impose_uniform _ _ _ _ _ _ (2, 2) ?_ ?_
  · rw [List.map_cons, List.map_cons, List.map_nil]
    rw [show page_size ⟨144, 144, 1⟩ = ((2 : ℚ), (2 : ℚ)) from by norm_num [page_size]]
    rw [List.dedup_cons_of_mem (by simp), List.dedup_cons_of_not_mem (by simp),
      List.dedup_nil]
  · norm_num [OutputSheet.max_spreads, OutputSheet.spread_grid_rows,
      OutputSheet.spread_grid_cols]

end TinyBooklet
